import Mathlib

/-!
Verification of the `SpriteBatch` 2D sprite batching engine
(src/Step3/SpriteBatch.cpp) against its specification.

The embedding is shallow:

* Floating point values (`float`) are modelled as exact rationals `ℚ`.
* A texture is identified by a `Nat` handle; comparing two `Texture2D*`
  pointers in the C++ code becomes comparing the handles.  The texture's
  pixel dimensions (`GetWidth`/`GetHeight`) and the packed sprite color
  (`Color::ToUInt`) live outside the repository (they are Urho3D library
  calls), so dimensions are supplied through a `RenderEnv` environment and
  the color is modelled as the already-packed 32-bit value.
* The external `SinCos` routine is modelled as an abstract environment
  function `ℚ → ℚ × ℚ` returning the (sine, cosine) pair of an angle;
  the geometry theorems are stated for every such function (and, where the
  claim pins the angle to zero, for the exact pair `(0, 1) = (sin 0, cos 0)`).
* The GPU subsystem is modelled by the list of commands `End()` issues to
  it, in order: state setters, vertex-buffer writes and draw calls become
  constructors of `GCommand`.
* The `while` loops of `End()` and `GetPortionLength()` are modelled by
  structural recursion: `GetPortionLength`'s loop on the remaining
  iteration budget `MAX_PORTION_SIZE - count` (the loop breaks as soon as
  `count >= MAX_PORTION_SIZE`), and `End()`'s portion loop on explicit
  fuel, returning `none`/truncating when the fuel runs out — the
  termination theorem proves fuel `sprites.length` always suffices.
-/

namespace SpriteBatchSpec

/-- `#define MAX_PORTION_SIZE 2000` — maximum number of sprites drawn by one
draw call. -/
def MAX_PORTION_SIZE : Nat := 2000

/-- `#define INDICES_PER_SPRITE 6` — each sprite occupies 6 index-buffer
elements (two triangles). -/
def INDICES_PER_SPRITE : Nat := 6

/-- `#define VERTICES_PER_SPRITE 4` — each sprite occupies 4 vertex-buffer
elements. -/
def VERTICES_PER_SPRITE : Nat := 4

/-- Urho3D `Vector2`, with exact rational coordinates. -/
structure Vector2 where
  x : ℚ
  y : ℚ
  deriving DecidableEq

/-- Urho3D `Vector3`, with exact rational coordinates. -/
structure Vector3 where
  x : ℚ
  y : ℚ
  z : ℚ
  deriving DecidableEq

/-- Urho3D `Vector4`, used with the 4×4 projection matrix. -/
structure Vector4 where
  x : ℚ
  y : ℚ
  z : ℚ
  w : ℚ
  deriving DecidableEq

/-- The `SBSprite` record stored in the `sprites_` list: texture handle,
position, packed color, rotation, origin and uniform scale. -/
structure SBSprite where
  texture : Nat
  position : Vector2
  color : Nat
  rotation : ℚ
  origin : Vector2
  scale : ℚ
  deriving DecidableEq

instance : Inhabited SBSprite := ⟨⟨0, ⟨0, 0⟩, 0, 0, ⟨0, 0⟩, 1⟩⟩

/-- The `SBVertex` vertex attributes: 3D position, packed color, UV. -/
structure SBVertex where
  position : Vector3
  color : Nat
  uv : Vector2
  deriving DecidableEq

/-- Texture of `sprites_[i]` (the C++ code only indexes in bounds; out of
bounds we default, mirroring that reads are only meaningful in bounds). -/
def texAt (sprites : List SBSprite) (i : Nat) : Nat :=
  (sprites.getD i default).texture

/-- The loop body of `SpriteBatch::GetPortionLength`.  The C++ loop keeps a
running `count` (starting at 1) and breaks when `count >= MAX_PORTION_SIZE`,
when `start + count` reaches the end of the list, or when the texture at
`start + count` differs from the texture at `start`.  Here `rem` is the
remaining iteration budget `MAX_PORTION_SIZE - count`; `rem = 0` is exactly
the `count >= MAX_PORTION_SIZE` break. -/
def portionLengthLoop (sprites : List SBSprite) (start : Nat) : Nat → Nat → Nat
  | count, 0 => count
  | count, rem + 1 =>
    if start + count = sprites.length then count
    else if texAt sprites (start + count) ≠ texAt sprites start then count
    else portionLengthLoop sprites start (count + 1) rem

/-- `SpriteBatch::GetPortionLength(start)`: length of the portion of
consecutive same-texture sprites beginning at `start`. -/
def GetPortionLength (sprites : List SBSprite) (start : Nat) : Nat :=
  portionLengthLoop sprites start 1 (MAX_PORTION_SIZE - 1)

/-- The portion `(start, count)` pairs produced by `End()`'s while loop,
with explicit fuel; `none` means the fuel ran out before the loop finished. -/
def portionsAux (sprites : List SBSprite) : Nat → Nat → Option (List (Nat × Nat))
  | fuel, start =>
    if start = sprites.length then some []
    else
      match fuel with
      | 0 => none
      | fuel' + 1 =>
        let count := GetPortionLength sprites start
        (portionsAux sprites fuel' (start + count)).map (fun ps => (start, count) :: ps)

/-- The portions visited by `End()`'s loop, run with fuel `sprites.length`
(shown sufficient by the termination theorem). -/
def endPortions (sprites : List SBSprite) : Option (List (Nat × Nat)) :=
  portionsAux sprites sprites.length 0

/-- The 6 index-buffer entries the constructor writes for sprite slot `i`
(lines 34–41): two triangles `(4i, 4i+1, 4i+2)` and `(4i+2, 4i+3, 4i)`.
The buffer elements are `unsigned short`, hence the reduction mod 2^16. -/
def spriteIndices (i : Nat) : List Nat :=
  [(i * VERTICES_PER_SPRITE + 0) % 65536,
   (i * VERTICES_PER_SPRITE + 1) % 65536,
   (i * VERTICES_PER_SPRITE + 2) % 65536,
   (i * VERTICES_PER_SPRITE + 2) % 65536,
   (i * VERTICES_PER_SPRITE + 3) % 65536,
   (i * VERTICES_PER_SPRITE + 0) % 65536]

/-- The contents of the static index buffer after the constructor's fill
loop over `i < MAX_PORTION_SIZE`. -/
def indexBufferData : List Nat :=
  (List.range MAX_PORTION_SIZE).flatMap spriteIndices

/-- Urho3D `Matrix3` (row major), with exact rational entries. -/
structure Matrix3 where
  (m00 m01 m02 : ℚ)
  (m10 m11 m12 : ℚ)
  (m20 m21 m22 : ℚ)
  deriving DecidableEq

/-- Urho3D `Matrix3 * Vector3`: rows times the column vector. -/
def Matrix3.mulVec (m : Matrix3) (v : Vector3) : Vector3 :=
  ⟨m.m00 * v.x + m.m01 * v.y + m.m02 * v.z,
   m.m10 * v.x + m.m11 * v.y + m.m12 * v.z,
   m.m20 * v.x + m.m21 * v.y + m.m22 * v.z⟩

/-- Urho3D `Matrix3 * Matrix3`: the usual row-by-column product. -/
def Matrix3.mul (a b : Matrix3) : Matrix3 :=
  ⟨a.m00 * b.m00 + a.m01 * b.m10 + a.m02 * b.m20,
   a.m00 * b.m01 + a.m01 * b.m11 + a.m02 * b.m21,
   a.m00 * b.m02 + a.m01 * b.m12 + a.m02 * b.m22,
   a.m10 * b.m00 + a.m11 * b.m10 + a.m12 * b.m20,
   a.m10 * b.m01 + a.m11 * b.m11 + a.m12 * b.m21,
   a.m10 * b.m02 + a.m11 * b.m12 + a.m12 * b.m22,
   a.m20 * b.m00 + a.m21 * b.m10 + a.m22 * b.m20,
   a.m20 * b.m01 + a.m21 * b.m11 + a.m22 * b.m21,
   a.m20 * b.m02 + a.m21 * b.m12 + a.m22 * b.m22⟩

/-- 2D translation by `v` in homogeneous coordinates. -/
def translateM (v : Vector2) : Matrix3 :=
  ⟨1, 0, v.x,
   0, 1, v.y,
   0, 0, 1⟩

/-- 2D rotation in homogeneous coordinates, built from the (sine, cosine)
pair `(s, c)` of the rotation angle (the embedding of the external `SinCos`
routine hands the pair over; see `RenderEnv.sinCosF`). -/
def rotateM (s c : ℚ) : Matrix3 :=
  ⟨c, -s, 0,
   s, c, 0,
   0, 0, 1⟩

/-- Uniform 2D scaling in homogeneous coordinates. -/
def scaleM (k : ℚ) : Matrix3 :=
  ⟨k, 0, 0,
   0, k, 0,
   0, 0, 1⟩

/-- The single precomputed transform matrix of `RenderPortion` (lines
215–220), written exactly as the code writes its entries: `s`, `c` are the
sine and cosine `SinCos` returned for the sprite's rotation, `k` its scale. -/
def spriteTransform (s c k : ℚ) (origin pos : Vector2) : Matrix3 :=
  ⟨c * k, -s * k, -origin.x * c * k + origin.y * s * k + pos.x,
   s * k, c * k, -origin.x * s * k - origin.y * c * k + pos.y,
   0, 0, 1⟩

/-- Replacing the homogeneous third component by the output depth 0
(`v.z_ = 0.0f` in the code). -/
def flattenZ (v : Vector3) : Vector3 :=
  ⟨v.x, v.y, 0⟩

/-- Fast-path vertex positions (lines 184–190, `rotation == 0 && scale == 1`):
shift the position by `-origin` and emit the axis-aligned rectangle's corners
top-left, top-right, bottom-right, bottom-left with z = 0. -/
def fastPositions (w h : ℚ) (sp : SBSprite) : List Vector3 :=
  [⟨sp.position.x - sp.origin.x, sp.position.y - sp.origin.y, 0⟩,
   ⟨sp.position.x - sp.origin.x + w, sp.position.y - sp.origin.y, 0⟩,
   ⟨sp.position.x - sp.origin.x + w, sp.position.y - sp.origin.y + h, 0⟩,
   ⟨sp.position.x - sp.origin.x, sp.position.y - sp.origin.y + h, 0⟩]

/-- General-path vertex positions (lines 196–240): the four homogeneous
corners `(0,0,1)`, `(w,0,1)`, `(w,h,1)`, `(0,h,1)` multiplied by the
precomputed transform, third component then replaced by 0. -/
def generalPositions (s c w h : ℚ) (sp : SBSprite) : List Vector3 :=
  [flattenZ ((spriteTransform s c sp.scale sp.origin sp.position).mulVec ⟨0, 0, 1⟩),
   flattenZ ((spriteTransform s c sp.scale sp.origin sp.position).mulVec ⟨w, 0, 1⟩),
   flattenZ ((spriteTransform s c sp.scale sp.origin sp.position).mulVec ⟨w, h, 1⟩),
   flattenZ ((spriteTransform s c sp.scale sp.origin sp.position).mulVec ⟨0, h, 1⟩)]

/-- The fixed texture coordinates written for every sprite (lines 250–253). -/
def spriteUVs : List Vector2 :=
  [⟨0, 0⟩, ⟨1, 0⟩, ⟨1, 1⟩, ⟨0, 1⟩]

/-- The four vertices `RenderPortion`'s loop body writes for one sprite:
positions from the fast or the general path (the branch on
`rotation == 0.0f && scale == 1.0f`, line 181), the sprite's packed color on
all four, and the fixed unit-square UVs.  `sinCosF` models the external
`SinCos` routine as a function returning the (sine, cosine) pair. -/
def renderSprite (sinCosF : ℚ → ℚ × ℚ) (w h : ℚ) (sp : SBSprite) : List SBVertex :=
  let ps :=
    if sp.rotation = 0 ∧ sp.scale = 1 then fastPositions w h sp
    else generalPositions (sinCosF sp.rotation).1 (sinCosF sp.rotation).2 w h sp
  List.zipWith (fun p uv => ⟨p, sp.color, uv⟩) ps spriteUVs

/-- The collaborating Urho3D subsystems outside this repository: `SinCos`
and the texture's pixel dimensions (`Texture2D::GetWidth`/`GetHeight`). -/
structure RenderEnv where
  sinCosF : ℚ → ℚ × ℚ
  texWidth : Nat → ℚ
  texHeight : Nat → ℚ

/-- The vertex data `RenderPortion(start, count)` writes into the locked
vertex buffer: the portion's texture dimensions are queried once from the
sprite at `start`, then the loop writes 4 vertices per sprite in order. -/
def renderPortionVerts (env : RenderEnv) (sprites : List SBSprite)
    (start count : Nat) : List SBVertex :=
  (List.range count).flatMap fun i =>
    renderSprite env.sinCosF (env.texWidth (texAt sprites start))
      (env.texHeight (texAt sprites start)) (sprites.getD (start + i) default)

/-- Urho3D `Matrix4` (row major), with exact rational entries. -/
structure Matrix4 where
  (m00 m01 m02 m03 : ℚ)
  (m10 m11 m12 m13 : ℚ)
  (m20 m21 m22 m23 : ℚ)
  (m30 m31 m32 m33 : ℚ)
  deriving DecidableEq

/-- Urho3D `Matrix4 * Vector4`: rows times the column vector. -/
def Matrix4.mulVec (m : Matrix4) (v : Vector4) : Vector4 :=
  ⟨m.m00 * v.x + m.m01 * v.y + m.m02 * v.z + m.m03 * v.w,
   m.m10 * v.x + m.m11 * v.y + m.m12 * v.z + m.m13 * v.w,
   m.m20 * v.x + m.m21 * v.y + m.m22 * v.z + m.m23 * v.w,
   m.m30 * v.x + m.m31 * v.y + m.m32 * v.z + m.m33 * v.w⟩

/-- The screen projection matrix `End()` builds from the viewport width and
height (lines 108–111), entry for entry. -/
def viewProjMatrix (w h : ℚ) : Matrix4 :=
  ⟨2 / w, 0, 0, -1,
   0, -2 / h, 0, 1,
   0, 0, 1, 0,
   0, 0, 0, 1⟩

/-- The graphics subsystem state `End()` queries: current viewport size. -/
structure Graphics where
  width : ℚ
  height : ℚ

/-- The calls `End()` makes into the graphics subsystem, in order, as an
abstract command trace. -/
inductive GCommand where
  | setBlendModeAlpha : GCommand
  | setVertexBuffer : GCommand
  | setIndexBuffer : GCommand
  | setShaders : GCommand
  | setShaderParamMatDiffColorWhite : GCommand
  | setShaderParamModelIdentity : GCommand
  | setShaderParamViewProj (m : Matrix4) : GCommand
  | vertexBufferWrite (verts : List SBVertex) : GCommand
  | setTexture (tex : Nat) : GCommand
  | draw (indexCount vertexCount : Nat) : GCommand
  deriving DecidableEq

/-- `RenderPortion(start, count)` as its command trace: lock/fill/unlock the
vertex buffer, bind the portion's texture, one draw call of
`count * INDICES_PER_SPRITE` indices and `count * VERTICES_PER_SPRITE`
vertices. -/
def renderPortionCmds (env : RenderEnv) (sprites : List SBSprite)
    (start count : Nat) : List GCommand :=
  [GCommand.vertexBufferWrite (renderPortionVerts env sprites start count),
   GCommand.setTexture (texAt sprites start),
   GCommand.draw (count * INDICES_PER_SPRITE) (count * VERTICES_PER_SPRITE)]

/-- The command trace of `End()`'s portion loop, with explicit fuel (the
termination theorem shows fuel `sprites.length` reaches the end of the
list). -/
def endLoopCmds (env : RenderEnv) (sprites : List SBSprite) : Nat → Nat → List GCommand
  | fuel, start =>
    if start = sprites.length then []
    else
      match fuel with
      | 0 => []
      | fuel' + 1 =>
        let count := GetPortionLength sprites start
        renderPortionCmds env sprites start count ++
          endLoopCmds env sprites fuel' (start + count)

/-- `SpriteBatch::End()` as the command trace it issues: nothing when the
sprite list is empty, otherwise blend mode, buffer binds, shaders, the two
invariant shader parameters, the projection matrix recomputed from the
current viewport, then the portion loop. -/
def End (env : RenderEnv) (g : Graphics) (sprites : List SBSprite) : List GCommand :=
  if sprites.length = 0 then []
  else
    GCommand.setBlendModeAlpha ::
    GCommand.setVertexBuffer ::
    GCommand.setIndexBuffer ::
    GCommand.setShaders ::
    GCommand.setShaderParamMatDiffColorWhite ::
    GCommand.setShaderParamModelIdentity ::
    GCommand.setShaderParamViewProj (viewProjMatrix g.width g.height) ::
    endLoopCmds env sprites sprites.length 0

/-- `SpriteBatch::Begin()`: clears the sprite list. -/
def Begin (_sprites : List SBSprite) : List SBSprite := []

/-- `SpriteBatch::Draw(...)`: appends one sprite record to the list. -/
def Draw (sprites : List SBSprite) (texture : Nat) (position : Vector2)
    (color : Nat) (rotation : ℚ) (origin : Vector2) (scale : ℚ) :
    List SBSprite :=
  sprites ++ [⟨texture, position, color, rotation, origin, scale⟩]

/-- Whether a command is a draw call. -/
def GCommand.isDrawCall : GCommand → Bool
  | GCommand.draw _ _ => true
  | _ => false

/-- Whether a command writes the vertex buffer. -/
def GCommand.isVertexBufferWrite : GCommand → Bool
  | GCommand.vertexBufferWrite _ => true
  | _ => false

/-- Texture A of the end-to-end grouping scenario, as a concrete sprite. -/
def sceneSpriteA : SBSprite := ⟨0, ⟨0, 0⟩, 0, 0, ⟨0, 0⟩, 1⟩

/-- Texture B of the end-to-end grouping scenario, as a concrete sprite. -/
def sceneSpriteB : SBSprite := ⟨1, ⟨0, 0⟩, 0, 0, ⟨0, 0⟩, 1⟩

/-- The `[A, A, B, A]` submission of the end-to-end grouping scenario. -/
def sceneSprites : List SBSprite :=
  [sceneSpriteA, sceneSpriteA, sceneSpriteB, sceneSpriteA]

theorem portionLengthLoop_ge (sprites : List SBSprite) (start : Nat) :
    ∀ rem count, count ≤ portionLengthLoop sprites start count rem := by
  intro rem
  induction rem with
  | zero => intro count; exact Nat.le_refl _
  | succ r ih =>
    intro count
    simp only [portionLengthLoop]
    split
    · exact Nat.le_refl _
    · split
      · exact Nat.le_refl _
      · exact Nat.le_trans (Nat.le_succ _) (ih (count + 1))

theorem portionLengthLoop_le (sprites : List SBSprite) (start : Nat) :
    ∀ rem count, portionLengthLoop sprites start count rem ≤ count + rem := by
  intro rem
  induction rem with
  | zero => intro count; exact Nat.le_add_right _ _
  | succ r ih =>
    intro count
    simp only [portionLengthLoop]
    split
    · exact Nat.le_add_right _ _
    · split
      · exact Nat.le_add_right _ _
      · exact Nat.le_trans (ih (count + 1)) (by omega)

theorem portionLengthLoop_within (sprites : List SBSprite) (start : Nat) :
    ∀ rem count, start + count ≤ sprites.length →
      start + portionLengthLoop sprites start count rem ≤ sprites.length := by
  intro rem
  induction rem with
  | zero => intro count h; exact h
  | succ r ih =>
    intro count h
    simp only [portionLengthLoop]
    split
    · exact h
    · split
      · exact h
      · exact ih (count + 1) (by omega)

theorem portionLengthLoop_homog (sprites : List SBSprite) (start : Nat) :
    ∀ rem count, (∀ j, j < count → texAt sprites (start + j) = texAt sprites start) →
      ∀ j, j < portionLengthLoop sprites start count rem →
        texAt sprites (start + j) = texAt sprites start := by
  intro rem
  induction rem with
  | zero => intro count h; exact h
  | succ r ih =>
    intro count h
    simp only [portionLengthLoop]
    split
    · exact h
    · split
      · exact h
      · rename_i hne htex
        refine ih (count + 1) ?_
        intro j hj
        rcases Nat.lt_succ_iff_lt_or_eq.mp hj with hj' | hj'
        · exact h j hj'
        · subst hj'
          exact not_not.mp (by simpa using htex)

theorem portionLengthLoop_stop (sprites : List SBSprite) (start : Nat) :
    ∀ rem count, count + rem = MAX_PORTION_SIZE →
      portionLengthLoop sprites start count rem = MAX_PORTION_SIZE ∨
      start + portionLengthLoop sprites start count rem = sprites.length ∨
      texAt sprites (start + portionLengthLoop sprites start count rem) ≠
        texAt sprites start := by
  intro rem
  induction rem with
  | zero => intro count h; left; simpa using h
  | succ r ih =>
    intro count h
    simp only [portionLengthLoop]
    split
    · right; left; assumption
    · split
      · right; right; assumption
      · exact ih (count + 1) (by omega)

/-- The bundled specification of `GetPortionLength` on an in-bounds start
index: the result is between 1 and `MAX_PORTION_SIZE`, stays inside the
list, the portion is texture-homogeneous, and the loop stopped for one of
its three reasons. -/
theorem GetPortionLength_spec (sprites : List SBSprite) (start : Nat)
    (h : start < sprites.length) :
    1 ≤ GetPortionLength sprites start ∧
    GetPortionLength sprites start ≤ MAX_PORTION_SIZE ∧
    start + GetPortionLength sprites start ≤ sprites.length ∧
    (∀ j, j < GetPortionLength sprites start →
      texAt sprites (start + j) = texAt sprites start) ∧
    (GetPortionLength sprites start = MAX_PORTION_SIZE ∨
     start + GetPortionLength sprites start = sprites.length ∨
     texAt sprites (start + GetPortionLength sprites start) ≠ texAt sprites start) := by
  refine ⟨portionLengthLoop_ge sprites start _ 1, ?_, ?_, ?_, ?_⟩
  · have h1 := portionLengthLoop_le sprites start (MAX_PORTION_SIZE - 1) 1
    have h2 : 1 + (MAX_PORTION_SIZE - 1) = MAX_PORTION_SIZE := by decide
    unfold GetPortionLength
    omega
  · exact portionLengthLoop_within sprites start _ 1 (by omega)
  · refine portionLengthLoop_homog sprites start _ 1 ?_
    intro j hj
    interval_cases j
    simp
  · exact portionLengthLoop_stop sprites start _ 1 (by decide)

/-- Maximality: any run length `m` that stays in bounds, respects the
portion-size cap and is texture-homogeneous is at most `GetPortionLength`. -/
theorem GetPortionLength_maximal (sprites : List SBSprite) (start : Nat)
    (h : start < sprites.length) (m : Nat)
    (hm : start + m ≤ sprites.length) (hmax : m ≤ MAX_PORTION_SIZE)
    (hhom : ∀ k, k < m → texAt sprites (start + k) = texAt sprites start) :
    m ≤ GetPortionLength sprites start := by
  obtain ⟨-, -, -, -, hstop⟩ := GetPortionLength_spec sprites start h
  by_contra hcon
  push_neg at hcon
  rcases hstop with hs | hs | hs
  · omega
  · omega
  · exact hs (hhom _ hcon)

theorem portionsAux_done (sprites : List SBSprite) (fuel start : Nat)
    (h : start = sprites.length) :
    portionsAux sprites fuel start = some [] := by
  rw [portionsAux.eq_def]
  simp [h]

theorem portionsAux_step (sprites : List SBSprite) (fuel start : Nat)
    (h : ¬ start = sprites.length) :
    portionsAux sprites (fuel + 1) start =
      (portionsAux sprites fuel (start + GetPortionLength sprites start)).map
        (fun ps => (start, GetPortionLength sprites start) :: ps) := by
  rw [portionsAux.eq_def]
  simp [h]

/-- The portion loop, started at `start ≤ length` with fuel at least
`length - start`, terminates and produces portions that partition
`sprites.drop start`, each in bounds, nonempty, capped by
`MAX_PORTION_SIZE` and texture-homogeneous. -/
theorem portionsAux_spec (sprites : List SBSprite) :
    ∀ fuel start, start ≤ sprites.length → sprites.length - start ≤ fuel →
      ∃ ps, portionsAux sprites fuel start = some ps ∧
        ps.flatMap (fun p => (sprites.drop p.1).take p.2) = sprites.drop start ∧
        ∀ p ∈ ps, 1 ≤ p.2 ∧ p.2 ≤ MAX_PORTION_SIZE ∧ p.1 + p.2 ≤ sprites.length ∧
          ∀ k, k < p.2 → texAt sprites (p.1 + k) = texAt sprites p.1 := by
  intro fuel
  induction fuel with
  | zero =>
    intro start h1 h2
    have h3 : start = sprites.length := by omega
    refine ⟨[], portionsAux_done sprites 0 start h3, ?_, by simp⟩
    simp [h3, List.drop_length]
  | succ f ih =>
    intro start h1 h2
    by_cases h3 : start = sprites.length
    · refine ⟨[], portionsAux_done sprites _ start h3, ?_, by simp⟩
      simp [h3, List.drop_length]
    · have h4 : start < sprites.length := by omega
      obtain ⟨hc1, hc2, hc3, hhom, -⟩ := GetPortionLength_spec sprites start h4
      obtain ⟨ps', hps', hconcat, hprops⟩ :=
        ih (start + GetPortionLength sprites start) hc3 (by omega)
      refine ⟨(start, GetPortionLength sprites start) :: ps', ?_, ?_, ?_⟩
      · rw [portionsAux_step sprites f start h3, hps']
        rfl
      · simp only [List.flatMap_cons, hconcat]
        rw [← List.drop_drop, List.take_append_drop]
      · intro p hp
        rcases List.mem_cons.mp hp with hp' | hp'
        · subst hp'
          exact ⟨hc1, hc2, hc3, hhom⟩
        · exact hprops p hp'

theorem texAt_replicate (n : Nat) (sp : SBSprite) (i : Nat) (h : i < n) :
    texAt (List.replicate n sp) i = sp.texture := by
  unfold texAt
  rw [List.getD_eq_getElem _ _ (by simpa using h)]
  simp

/-- On an all-same-texture list, the portion starting at an in-bounds index
covers the rest of the list, capped at `MAX_PORTION_SIZE`. -/
theorem GetPortionLength_replicate (n : Nat) (sp : SBSprite) (start : Nat)
    (h : start < n) :
    GetPortionLength (List.replicate n sp) start =
      min MAX_PORTION_SIZE (n - start) := by
  have hlen : (List.replicate n sp).length = n := List.length_replicate n sp
  obtain ⟨hc1, hc2, hc3, -, hstop⟩ :=
    GetPortionLength_spec (List.replicate n sp) start (by omega)
  rcases hstop with hs | hs | hs
  · omega
  · omega
  · have heq : start + GetPortionLength (List.replicate n sp) start = n := by
      by_contra hne
      have hin : start + GetPortionLength (List.replicate n sp) start < n := by omega
      exact hs ((texAt_replicate n sp _ hin).trans (texAt_replicate n sp _ h).symm)
    omega

/-- Submitting `MAX_PORTION_SIZE + 1` copies of one sprite yields exactly the
two portions `(0, MAX_PORTION_SIZE)` and `(MAX_PORTION_SIZE, 1)`. -/
theorem endPortions_replicate (sp : SBSprite) :
    endPortions (List.replicate (MAX_PORTION_SIZE + 1) sp) =
      some [(0, MAX_PORTION_SIZE), (MAX_PORTION_SIZE, 1)] := by
  have hM : MAX_PORTION_SIZE = 2000 := rfl
  have hlen : (List.replicate (MAX_PORTION_SIZE + 1) sp).length = 2001 := by
    rw [List.length_replicate, hM]
  have g0 : GetPortionLength (List.replicate (MAX_PORTION_SIZE + 1) sp) 0 = 2000 := by
    rw [GetPortionLength_replicate _ sp 0 (by omega)]
    simp [hM]
  have g1 : GetPortionLength (List.replicate (MAX_PORTION_SIZE + 1) sp) 2000 = 1 := by
    rw [GetPortionLength_replicate _ sp 2000 (by omega)]
    simp [hM]
  unfold endPortions
  rw [hlen]
  rw [show (2001 : Nat) = 2000 + 1 from rfl,
    portionsAux_step _ 2000 0 (by omega), g0]
  rw [show (0 + 2000 : Nat) = 2000 from rfl]
  rw [show (2000 : Nat) = 1999 + 1 from rfl,
    portionsAux_step _ 1999 2000 (by omega), g1]
  rw [portionsAux_done _ 1999 (2000 + 1) (by omega)]
  simp [hM]

theorem length_flatMap_spriteIndices (n : Nat) :
    ((List.range n).flatMap spriteIndices).length = n * 6 := by
  induction n with
  | zero => rfl
  | succ m ih =>
    rw [List.range_succ, List.flatMap_append, List.length_append, ih]
    have h6 : ([m].flatMap spriteIndices).length = 6 := rfl
    omega

theorem flatMap_spriteIndices_drop :
    ∀ i n s, i < n →
      (((List.range' s n).flatMap spriteIndices).drop (6 * i)) =
        (List.range' (s + i) (n - i)).flatMap spriteIndices := by
  intro i
  induction i with
  | zero => intro n s _; simp
  | succ j ih =>
    intro n s h
    cases n with
    | zero => omega
    | succ m =>
      rw [List.range'_succ, List.flatMap_cons]
      rw [show 6 * (j + 1) = 6 + 6 * j by ring, ← List.drop_drop,
        List.drop_left' (show (spriteIndices s).length = 6 from rfl)]
      rw [ih m (s + 1) (by omega)]
      rw [show s + 1 + j = s + (j + 1) by omega, show m - j = m + 1 - (j + 1) by omega]

theorem indexBufferData_slot (i : Nat) (h : i < MAX_PORTION_SIZE) :
    (indexBufferData.drop (INDICES_PER_SPRITE * i)).take INDICES_PER_SPRITE =
      [4 * i, 4 * i + 1, 4 * i + 2, 4 * i + 2, 4 * i + 3, 4 * i] := by
  have hM : MAX_PORTION_SIZE = 2000 := rfl
  unfold indexBufferData
  rw [List.range_eq_range', show INDICES_PER_SPRITE = 6 from rfl,
    flatMap_spriteIndices_drop i MAX_PORTION_SIZE 0 h,
    show MAX_PORTION_SIZE - i = (MAX_PORTION_SIZE - i - 1) + 1 by omega,
    List.range'_succ, List.flatMap_cons,
    List.take_left' (show (spriteIndices (0 + i)).length = 6 from rfl)]
  simp only [spriteIndices, VERTICES_PER_SPRITE, Nat.zero_add, List.cons.injEq,
    and_true]
  omega

theorem endLoopCmds_done (env : RenderEnv) (sprites : List SBSprite)
    (fuel start : Nat) (h : start = sprites.length) :
    endLoopCmds env sprites fuel start = [] := by
  rw [endLoopCmds.eq_def]
  simp [h]

theorem endLoopCmds_step (env : RenderEnv) (sprites : List SBSprite)
    (fuel start : Nat) (h : ¬ start = sprites.length) :
    endLoopCmds env sprites (fuel + 1) start =
      renderPortionCmds env sprites start (GetPortionLength sprites start) ++
        endLoopCmds env sprites fuel (start + GetPortionLength sprites start) := by
  rw [endLoopCmds.eq_def]
  simp [h]

/-- Each portion the loop visits contributes exactly one draw call. -/
theorem endLoopCmds_draws (env : RenderEnv) (sprites : List SBSprite) :
    ∀ fuel start ps, portionsAux sprites fuel start = some ps →
      (endLoopCmds env sprites fuel start).countP GCommand.isDrawCall = ps.length := by
  intro fuel
  induction fuel with
  | zero =>
    intro start ps hps
    by_cases h : start = sprites.length
    · rw [portionsAux_done sprites 0 start h] at hps
      cases hps
      rw [endLoopCmds_done env sprites 0 start h]
      rfl
    · rw [portionsAux.eq_def] at hps
      simp [h] at hps
  | succ f ih =>
    intro start ps hps
    by_cases h : start = sprites.length
    · rw [portionsAux_done sprites (f + 1) start h] at hps
      cases hps
      rw [endLoopCmds_done env sprites (f + 1) start h]
      rfl
    · rw [portionsAux_step sprites f start h] at hps
      rw [endLoopCmds_step env sprites f start h]
      cases hq : portionsAux sprites f (start + GetPortionLength sprites start) with
      | none => rw [hq] at hps; simp at hps
      | some ps' =>
        rw [hq] at hps
        simp at hps
        subst hps
        rw [List.countP_append, ih _ _ hq]
        simp [renderPortionCmds, List.countP_cons, GCommand.isDrawCall,
          Nat.add_comm]

/-- On a nonempty sprite list, `End()`'s draw-call count is the number of
portions of `endPortions`. -/
theorem End_draw_calls (env : RenderEnv) (g : Graphics) (sprites : List SBSprite)
    (ps : List (Nat × Nat)) (hps : endPortions sprites = some ps)
    (hne : ¬ sprites.length = 0) :
    (End env g sprites).countP GCommand.isDrawCall = ps.length := by
  rw [End, if_neg hne]
  simp only [List.countP_cons, GCommand.isDrawCall]
  rw [endLoopCmds_draws env sprites sprites.length 0 ps hps]
  rfl

/-- The code's precomputed matrix is the product
`Translate(position) * Rotate * Scale * Translate(-origin)` (the comment
block at lines 201–210, verified algebraically). -/
theorem spriteTransform_eq_product (s c k : ℚ) (origin pos : Vector2) :
    spriteTransform s c k origin pos =
      (translateM pos).mul ((rotateM s c).mul
        ((scaleM k).mul (translateM ⟨-origin.x, -origin.y⟩))) := by
  simp only [spriteTransform, translateM, rotateM, scaleM, Matrix3.mul,
    Matrix3.mk.injEq]
  refine ⟨by ring, by ring, by ring, by ring, by ring, by ring, by ring,
    by ring, by ring⟩

/-- Claim C1: for every accumulated sprite sequence, the portions produced
by `End()`'s loop over `GetPortionLength` partition the sequence exactly in
submission order (concatenating the portions reconstructs the original
sequence), every request within one portion has the texture of the portion's
first request, no portion's count exceeds `MAX_PORTION_SIZE`; and
`MAX_PORTION_SIZE + 1` same-texture sprites yield exactly the two portions
of sizes `MAX_PORTION_SIZE` and 1. -/
theorem spec_claim_C1 :
    (∀ sprites : List SBSprite, ∃ ps,
      endPortions sprites = some ps ∧
      ps.flatMap (fun p => (sprites.drop p.1).take p.2) = sprites ∧
      (∀ p ∈ ps, ∀ k, k < p.2 → texAt sprites (p.1 + k) = texAt sprites p.1) ∧
      (∀ p ∈ ps, p.2 ≤ MAX_PORTION_SIZE)) ∧
    (∀ sp : SBSprite,
      endPortions (List.replicate (MAX_PORTION_SIZE + 1) sp) =
        some [(0, MAX_PORTION_SIZE), (MAX_PORTION_SIZE, 1)]) := by
  constructor
  · intro sprites
    obtain ⟨ps, h1, h2, h3⟩ :=
      portionsAux_spec sprites sprites.length 0 (Nat.zero_le _) (by omega)
    refine ⟨ps, h1, ?_, fun p hp => (h3 p hp).2.2.2, fun p hp => (h3 p hp).2.1⟩
    simpa using h2
  · exact endPortions_replicate

/-- Claim C2: `GetPortionLength(start)` returns the length of the maximal
run beginning at `start` (texture-homogeneous, stopped exactly by a texture
change, the list end, or the `MAX_PORTION_SIZE` cap), and the `[A, A, B, A]`
submission yields the three portions `(0,2)`, `(2,1)`, `(3,1)` and hence 3
draw calls. -/
theorem spec_claim_C2 :
    (∀ (sprites : List SBSprite) (start : Nat), start < sprites.length →
      (∀ k, k < GetPortionLength sprites start →
        texAt sprites (start + k) = texAt sprites start) ∧
      (GetPortionLength sprites start = MAX_PORTION_SIZE ∨
       start + GetPortionLength sprites start = sprites.length ∨
       (start + GetPortionLength sprites start < sprites.length ∧
        texAt sprites (start + GetPortionLength sprites start) ≠
          texAt sprites start)) ∧
      (∀ m, start + m ≤ sprites.length → m ≤ MAX_PORTION_SIZE →
        (∀ k, k < m → texAt sprites (start + k) = texAt sprites start) →
        m ≤ GetPortionLength sprites start)) ∧
    endPortions sceneSprites = some [(0, 2), (2, 1), (3, 1)] ∧
    (∀ (env : RenderEnv) (g : Graphics),
      (End env g sceneSprites).countP GCommand.isDrawCall = 3) := by
  refine ⟨?_, ?_, ?_⟩
  · intro sprites start h
    obtain ⟨-, -, hc3, hhom, hstop⟩ := GetPortionLength_spec sprites start h
    refine ⟨hhom, ?_,
      fun m hm1 hm2 hm3 => GetPortionLength_maximal sprites start h m hm1 hm2 hm3⟩
    rcases hstop with hs | hs | hs
    · exact Or.inl hs
    · exact Or.inr (Or.inl hs)
    · rcases Nat.lt_or_ge (start + GetPortionLength sprites start)
        sprites.length with h2 | h2
      · exact Or.inr (Or.inr ⟨h2, hs⟩)
      · exact Or.inr (Or.inl (by omega))
  · decide
  · intro env g
    rw [End_draw_calls env g sceneSprites [(0, 2), (2, 1), (3, 1)]
      (by decide) (by decide)]
    rfl

/-- Claim C3: the static index buffer holds exactly
`MAX_PORTION_SIZE * INDICES_PER_SPRITE` indices, and for every sprite slot
`i` its 6 indices are the vertex slots `(4i, 4i+1, 4i+2)` followed by
`(4i+2, 4i+3, 4i)`. -/
theorem spec_claim_C3 :
    indexBufferData.length = MAX_PORTION_SIZE * INDICES_PER_SPRITE ∧
    ∀ i, i < MAX_PORTION_SIZE →
      (indexBufferData.drop (INDICES_PER_SPRITE * i)).take INDICES_PER_SPRITE =
        [4 * i, 4 * i + 1, 4 * i + 2, 4 * i + 2, 4 * i + 3, 4 * i] := by
  constructor
  · unfold indexBufferData
    rw [length_flatMap_spriteIndices]
    rfl
  · exact indexBufferData_slot

/-- Claim C7: `End()` on an empty accumulated list returns immediately —
no commands at all are issued to the graphics subsystem; in particular
`Begin(); End();` performs zero draw calls and zero vertex-buffer writes. -/
theorem spec_claim_C7 :
    (∀ (env : RenderEnv) (g : Graphics), End env g [] = []) ∧
    (∀ (env : RenderEnv) (g : Graphics) (sprites : List SBSprite),
      End env g (Begin sprites) = [] ∧
      (End env g (Begin sprites)).countP GCommand.isDrawCall = 0 ∧
      (End env g (Begin sprites)).countP GCommand.isVertexBufferWrite = 0) := by
  constructor
  · intro env g
    rfl
  · intro env g sprites
    exact ⟨rfl, rfl, rfl⟩

/-- Claim C10: on every in-bounds start index `GetPortionLength` returns a
count with `1 ≤ count ≤ MAX_PORTION_SIZE` and `start + count ≤ length`, so
`End()`'s loop strictly advances and terminates (fuel `length` suffices)
with every portion in bounds. -/
theorem spec_claim_C10 :
    (∀ (sprites : List SBSprite) (start : Nat), start < sprites.length →
      1 ≤ GetPortionLength sprites start ∧
      GetPortionLength sprites start ≤ MAX_PORTION_SIZE ∧
      start + GetPortionLength sprites start ≤ sprites.length) ∧
    (∀ sprites : List SBSprite, ∃ ps,
      endPortions sprites = some ps ∧
      ∀ p ∈ ps, 1 ≤ p.2 ∧ p.1 + p.2 ≤ sprites.length) := by
  constructor
  · intro sprites start h
    obtain ⟨h1, h2, h3, -, -⟩ := GetPortionLength_spec sprites start h
    exact ⟨h1, h2, h3⟩
  · intro sprites
    obtain ⟨ps, h1, -, h3⟩ :=
      portionsAux_spec sprites sprites.length 0 (Nat.zero_le _) (by omega)
    exact ⟨ps, h1, fun p hp => ⟨(h3 p hp).1, (h3 p hp).2.2.1⟩⟩

/-- Claim C4: with rotation 0 and scale 1 the emitted positions are the
corners of the axis-aligned rectangle `[p, p + (w, h)]`, `p = position -
origin`, in order top-left, top-right, bottom-right, bottom-left, each with
z = 0; including the two concrete 32×32 scenarios at position `(10, 10)`
with origins `(0, 0)` and `(16, 16)`. -/
theorem spec_claim_C4 :
    (∀ (sinCosF : ℚ → ℚ × ℚ) (w h : ℚ) (tex col : Nat) (pos origin : Vector2),
      (renderSprite sinCosF w h ⟨tex, pos, col, 0, origin, 1⟩).map SBVertex.position =
        [⟨pos.x - origin.x, pos.y - origin.y, 0⟩,
         ⟨pos.x - origin.x + w, pos.y - origin.y, 0⟩,
         ⟨pos.x - origin.x + w, pos.y - origin.y + h, 0⟩,
         ⟨pos.x - origin.x, pos.y - origin.y + h, 0⟩]) ∧
    (∀ (sinCosF : ℚ → ℚ × ℚ) (col : Nat),
      (renderSprite sinCosF 32 32 ⟨0, ⟨10, 10⟩, col, 0, ⟨0, 0⟩, 1⟩).map
          SBVertex.position =
        [⟨10, 10, 0⟩, ⟨42, 10, 0⟩, ⟨42, 42, 0⟩, ⟨10, 42, 0⟩]) ∧
    (∀ (sinCosF : ℚ → ℚ × ℚ) (col : Nat),
      (renderSprite sinCosF 32 32 ⟨0, ⟨10, 10⟩, col, 0, ⟨16, 16⟩, 1⟩).map
          SBVertex.position =
        [⟨-6, -6, 0⟩, ⟨26, -6, 0⟩, ⟨26, 26, 0⟩, ⟨-6, 26, 0⟩]) := by
  refine ⟨?_, ?_, ?_⟩
  · intro sinCosF w h tex col pos origin
    simp [renderSprite, fastPositions, spriteUVs]
  · intro sinCosF col
    norm_num [renderSprite, fastPositions, spriteUVs]
  · intro sinCosF col
    norm_num [renderSprite, fastPositions, spriteUVs]

/-- Claim C5: the single precomputed 3×3 matrix equals the four-factor
product `Translate(position) * Rotate(rotation) * Scale(scale) *
Translate(-origin)` (the rotation factor built from the (sine, cosine) pair
`SinCos` returns for the rotation), and on the general path (rotation ≠ 0 or
scale ≠ 1) the emitted positions are that matrix applied to the homogeneous
corners `(0,0,1)`, `(w,0,1)`, `(w,h,1)`, `(0,h,1)` in TL, TR, BR, BL order
with the third component then replaced by 0. -/
theorem spec_claim_C5 :
    (∀ (s c k : ℚ) (origin pos : Vector2),
      spriteTransform s c k origin pos =
        (translateM pos).mul ((rotateM s c).mul
          ((scaleM k).mul (translateM ⟨-origin.x, -origin.y⟩)))) ∧
    (∀ (sinCosF : ℚ → ℚ × ℚ) (w h : ℚ) (sp : SBSprite),
      sp.rotation ≠ 0 ∨ sp.scale ≠ 1 →
      (renderSprite sinCosF w h sp).map SBVertex.position =
        [flattenZ (((translateM sp.position).mul
            ((rotateM (sinCosF sp.rotation).1 (sinCosF sp.rotation).2).mul
              ((scaleM sp.scale).mul
                (translateM ⟨-sp.origin.x, -sp.origin.y⟩)))).mulVec ⟨0, 0, 1⟩),
         flattenZ (((translateM sp.position).mul
            ((rotateM (sinCosF sp.rotation).1 (sinCosF sp.rotation).2).mul
              ((scaleM sp.scale).mul
                (translateM ⟨-sp.origin.x, -sp.origin.y⟩)))).mulVec ⟨w, 0, 1⟩),
         flattenZ (((translateM sp.position).mul
            ((rotateM (sinCosF sp.rotation).1 (sinCosF sp.rotation).2).mul
              ((scaleM sp.scale).mul
                (translateM ⟨-sp.origin.x, -sp.origin.y⟩)))).mulVec ⟨w, h, 1⟩),
         flattenZ (((translateM sp.position).mul
            ((rotateM (sinCosF sp.rotation).1 (sinCosF sp.rotation).2).mul
              ((scaleM sp.scale).mul
                (translateM ⟨-sp.origin.x, -sp.origin.y⟩)))).mulVec ⟨0, h, 1⟩)]) := by
  constructor
  · exact spriteTransform_eq_product
  · intro sinCosF w h sp hgen
    have hcond : ¬ (sp.rotation = 0 ∧ sp.scale = 1) := by
      intro hc
      rcases hgen with hg | hg
      · exact hg hc.1
      · exact hg hc.2
    rw [← spriteTransform_eq_product]
    simp [renderSprite, hcond, generalPositions, spriteUVs]

/-- Claim C6: for rotation 0 (whose sine/cosine pair is `(0, 1)`), scale 1
and origin `(0, 0)`, the general-path transform produces the same four
corner positions as the fast path, for every position and texture size. -/
theorem spec_claim_C6 :
    ∀ (w h : ℚ) (tex col : Nat) (pos : Vector2),
      generalPositions 0 1 w h ⟨tex, pos, col, 0, ⟨0, 0⟩, 1⟩ =
        fastPositions w h ⟨tex, pos, col, 0, ⟨0, 0⟩, 1⟩ := by
  intro w h tex col pos
  norm_num [generalPositions, fastPositions, spriteTransform, Matrix3.mulVec,
    flattenZ]
  exact ⟨by ring, by ring⟩

/-- Claim C8: on both paths, all four emitted vertices carry the sprite's
packed color, and the UVs are exactly `(0,0)`, `(1,0)`, `(1,1)`, `(0,1)` in
corner order, independent of the transform. -/
theorem spec_claim_C8 :
    ∀ (sinCosF : ℚ → ℚ × ℚ) (w h : ℚ) (sp : SBSprite),
      (renderSprite sinCosF w h sp).map SBVertex.color =
        [sp.color, sp.color, sp.color, sp.color] ∧
      (renderSprite sinCosF w h sp).map SBVertex.uv =
        [⟨0, 0⟩, ⟨1, 0⟩, ⟨1, 1⟩, ⟨0, 1⟩] := by
  intro sinCosF w h sp
  by_cases hc : sp.rotation = 0 ∧ sp.scale = 1 <;>
    simp [renderSprite, hc, fastPositions, generalPositions, spriteUVs]

/-- Claim C9: the projection matrix maps `(x, y, z, 1)` to
`((2/w)x - 1, (-2/h)y + 1, z, 1)`, and every nonempty `End()` sets it from
the viewport size queried from the graphics subsystem at that call. -/
theorem spec_claim_C9 :
    (∀ (w h x y z : ℚ),
      (viewProjMatrix w h).mulVec ⟨x, y, z, 1⟩ =
        ⟨2 / w * x - 1, -(2 / h) * y + 1, z, 1⟩) ∧
    (∀ (env : RenderEnv) (g : Graphics) (sprites : List SBSprite),
      sprites ≠ [] →
      GCommand.setShaderParamViewProj (viewProjMatrix g.width g.height) ∈
        End env g sprites) := by
  constructor
  · intro w h x y z
    simp [viewProjMatrix, Matrix4.mulVec]
    constructor
    · ring
    · ring
  · intro env g sprites hne
    rw [End, if_neg (by simpa [List.length_eq_zero] using hne)]
    simp

end SpriteBatchSpec
